import Mathlib

/-
  Verification of the ECOS API client (src/getData/ecos.py) against its
  natural-language specification.

  The Python module is embedded shallowly:

  * `requests.get` and the surrounding HTTP layer are modelled by passing the
    response (or a fetch oracle) as an explicit argument;
  * JSON values are modelled by the inductive `JVal`; the parsed body of a
    response is an association list of string keys;
  * pandas Timestamps are modelled by `Date` triples; the `pd.Timestamp`
    constructor raises (returns `.raised`) outside the documented pandas
    bounds 1677-09-22 .. 2262-04-11 or on a non-existent calendar date;
  * the data frames produced by `processECOSData` are modelled by `PDF`
    (an index of dates plus named columns of optional cells, `none` = NaN);
  * Python exceptions are the error values of `Except PyExc`;
  * in the module's regex, `$` matches at the end of the string or just
    before one trailing newline; `parseTime` therefore discounts a single
    trailing newline before the anchored match (no pattern atom can consume
    a newline, so the two cases never overlap).  `\d` is modelled as an
    ASCII digit; Python's `\d` also accepts Unicode decimal digits, so the
    statements about non-matching inputs carry an explicit ASCII scope;
  * `pd.to_numeric(..., errors="coerce")` producing a non-NaN float is
    modelled by the decidable string predicate `isNumericString`; the
    magnitude of a numeric cell is never inspected by any property below,
    so a numeric cell keeps its source string as payload.
-/

/-! ### Decimal digits -/

/-- Numeric value of an ASCII digit character, as `int` reads it. -/
def charVal (c : Char) : Nat := c.toNat - 48

/-- `int` applied to a string of decimal digits. -/
def natOfDigits (cs : List Char) : Nat := cs.foldl (fun a c => a * 10 + charVal c) 0

/-! ### pandas Timestamps

`pd.Timestamp(y, m, d)` either returns a timestamp or raises: it raises on a
month outside 1..12, a day outside the month, and (with nanosecond resolution)
on dates outside `Timestamp.min` = 1677-09-21 00:12:43.14 and `Timestamp.max`
= 2262-04-11 23:47:16.85, so midnight of a day is representable exactly for
1677-09-22 .. 2262-04-11. -/

structure Date where
  year : Nat
  month : Nat
  day : Nat
deriving DecidableEq

/-- Gregorian leap-year rule (as used by `datetime` / pandas). -/
def isLeapYear (y : Nat) : Bool := (y % 4 == 0 && y % 100 != 0) || y % 400 == 0

/-- Number of days of month `m` of year `y`. -/
def daysInMonth (y m : Nat) : Nat :=
  if m = 2 then (if isLeapYear y then 29 else 28)
  else if m = 4 ∨ m = 6 ∨ m = 9 ∨ m = 11 then 30
  else 31

/-- `y`-`m`-`d` packed decimally, for comparing calendar dates. -/
def dateKey (y m d : Nat) : Nat := (y * 100 + m) * 100 + d

/-- Whether `pd.Timestamp(y, m, d)` succeeds: a real calendar date between
1677-09-22 and 2262-04-11 (see the header comment). -/
def validTimestamp (y m d : Nat) : Bool :=
  1 ≤ m && m ≤ 12 && 1 ≤ d && d ≤ daysInMonth y m &&
  16770922 ≤ dateKey y m d && dateKey y m d ≤ 22620411

/-- Outcome of `Ecos.parseTime`: the NaT sentinel, a raised exception, or a
timestamp (midnight of a calendar day). -/
inductive PTResult where
  | nat : PTResult
  | raised : PTResult
  | ts (y m d : Nat) : PTResult
deriving DecidableEq

/-- `pd.Timestamp(y, m, d)`: a timestamp, or a raised exception. -/
def pdTimestamp (y m d : Nat) : PTResult :=
  if validTimestamp y m d then .ts y m d else .raised

/-! ### The date-format regex of `Ecos.parseTime`

```
^ (?P<y>\d{4})
  (?: (?P<m>\d{2}) (?: (?P<d>\d{2}) | S(?P<sm>[12]) )?
    | Q(?P<q>[1-4])
    | S(?P<s>[12]) )?
$
```

A match of the whole string is one of six shapes: the four-digit year alone,
year + two-digit month, year + month + two-digit day, year + month + `S1|S2`,
year + `Q1..Q4`, year + `S1|S2`.  The alternatives are mutually exclusive
(after the year, the next character is a digit, `Q` or `S`, and the total
length fixes the branch), so the match is modelled by direct case analysis
on the characters after the year. -/

/-- The regex groups of a successful match. -/
inductive TimeGroups where
  | yearOnly (y : Nat)
  | month (y m : Nat)
  | day (y m d : Nat)
  | semiMonth (y m h : Nat)
  | quarter (y q : Nat)
  | semi (y s : Nat)
deriving DecidableEq

/-- Match of the regex part after the four-digit year (see the regex above):
nothing; `Qq` with `q` in 1..4; `Ss` with `s` in 1..2; two digits (month),
optionally followed by two more digits (day) or by `S1|S2` (half-month).
Any other remainder fails the whole match. -/
def pRest (y : Nat) : List Char → Option TimeGroups
  | [] => some (.yearOnly y)
  | [c1, c2] =>
    if c1 = 'Q' then
      if '1' ≤ c2 ∧ c2 ≤ '4' then some (.quarter y (charVal c2)) else none
    else if c1 = 'S' then
      if c2 = '1' ∨ c2 = '2' then some (.semi y (charVal c2)) else none
    else if c1.isDigit && c2.isDigit then
      some (.month y (natOfDigits [c1, c2]))
    else none
  | [c1, c2, c3, c4] =>
    if c1.isDigit && c2.isDigit then
      if c3 = 'S' then
        if c4 = '1' ∨ c4 = '2' then
          some (.semiMonth y (natOfDigits [c1, c2]) (charVal c4))
        else none
      else if c3.isDigit && c4.isDigit then
        some (.day y (natOfDigits [c1, c2]) (natOfDigits [c3, c4]))
      else none
    else none
  | _ => none

/-- Full-string match of the regex: four digits (the year), then `pRest`. -/
def pMatch : List Char → Option TimeGroups
  | y1 :: y2 :: y3 :: y4 :: rest =>
    if y1.isDigit && y2.isDigit && y3.isDigit && y4.isDigit then
      pRest (natOfDigits [y1, y2, y3, y4]) rest
    else none
  | _ => none

/-- Remove one final newline character, if present: the positions at which
Python's `$` (without `re.MULTILINE`) matches are the end of the string and
just before a newline that ends the string. -/
def dropFinalNewline : List Char → List Char
  | [] => []
  | [c] => if c = '\n' then [] else [c]
  | c :: rest => c :: dropFinalNewline rest

def stripTrailingNewline (s : String) : String := String.mk (dropFinalNewline s.data)

/-- The group-to-timestamp mapping of `Ecos.parseTime` (its chain of `if`s on
the groups `q`, `s`, `sm`, `d`, `m`, in that order). -/
def groupTimestamp : TimeGroups → PTResult
  | .quarter y q => pdTimestamp y ((q - 1) * 3 + 1) 1
  | .semi y s => pdTimestamp y ((s - 1) * 6 + 1) 1
  | .semiMonth y m h => pdTimestamp y m (if h = 1 then 1 else 16)
  | .day y m d => pdTimestamp y m d
  | .month y m => pdTimestamp y m 1
  | .yearOnly y => pdTimestamp y 1 1

/-- `Ecos.parseTime`: NaT when the regex does not match, otherwise the
timestamp built from the matched groups (which may raise).  The regex matches
the whole string up to a position accepted by `$`: either the very end, or
just before one trailing newline — all pattern atoms are digits or the
letters `Q`/`S`, so a string with a trailing newline matches exactly when the
string without it does, and the two stages below never both succeed. -/
def parseTime (s : String) : PTResult :=
  match pMatch s.data with
  | some g => groupTimestamp g
  | none =>
    match pMatch (dropFinalNewline s.data) with
    | some g => groupTimestamp g
    | none => .nat

/-! ### The six date patterns, as the specification words them

"six fixed patterns: YYYY, YYYYMM, YYYYMMDD, YYYYQ[1-4], YYYYS[1-2],
YYYYMMS[1-2], each mapping deterministically to a first-of-period calendar
date".  `specSixDate s y m d` says: the string `s` matches one of the six
patterns and the first calendar day of the period it encodes is `y`-`m`-`d`. -/

def specSixDate (s : String) (y m d : Nat) : Prop :=
  -- YYYY: January 1 of that year
  (∃ a b c e, s.data = [a, b, c, e] ∧
    a.isDigit = true ∧ b.isDigit = true ∧ c.isDigit = true ∧ e.isDigit = true ∧
    y = natOfDigits [a, b, c, e] ∧ m = 1 ∧ d = 1) ∨
  -- YYYYMM: day 1 of that month
  (∃ a b c e m1 m2, s.data = [a, b, c, e, m1, m2] ∧
    a.isDigit = true ∧ b.isDigit = true ∧ c.isDigit = true ∧ e.isDigit = true ∧
    m1.isDigit = true ∧ m2.isDigit = true ∧
    y = natOfDigits [a, b, c, e] ∧ m = natOfDigits [m1, m2] ∧ d = 1) ∨
  -- YYYYMMDD: that exact day
  (∃ a b c e m1 m2 d1 d2, s.data = [a, b, c, e, m1, m2, d1, d2] ∧
    a.isDigit = true ∧ b.isDigit = true ∧ c.isDigit = true ∧ e.isDigit = true ∧
    m1.isDigit = true ∧ m2.isDigit = true ∧ d1.isDigit = true ∧ d2.isDigit = true ∧
    y = natOfDigits [a, b, c, e] ∧ m = natOfDigits [m1, m2] ∧ d = natOfDigits [d1, d2]) ∨
  -- YYYYQq, q in 1..4: day 1 of month 3*(q-1)+1
  (∃ a b c e q, s.data = [a, b, c, e, 'Q', q] ∧
    a.isDigit = true ∧ b.isDigit = true ∧ c.isDigit = true ∧ e.isDigit = true ∧
    '1' ≤ q ∧ q ≤ '4' ∧
    y = natOfDigits [a, b, c, e] ∧ m = 3 * (charVal q - 1) + 1 ∧ d = 1) ∨
  -- YYYYSs, s in 1..2: day 1 of month 6*(s-1)+1
  (∃ a b c e h, s.data = [a, b, c, e, 'S', h] ∧
    a.isDigit = true ∧ b.isDigit = true ∧ c.isDigit = true ∧ e.isDigit = true ∧
    (h = '1' ∨ h = '2') ∧
    y = natOfDigits [a, b, c, e] ∧ m = 6 * (charVal h - 1) + 1 ∧ d = 1) ∨
  -- YYYYMMSh, h in 1..2: day 1 of that month when h=1, day 16 when h=2
  (∃ a b c e m1 m2 h, s.data = [a, b, c, e, m1, m2, 'S', h] ∧
    a.isDigit = true ∧ b.isDigit = true ∧ c.isDigit = true ∧ e.isDigit = true ∧
    m1.isDigit = true ∧ m2.isDigit = true ∧ (h = '1' ∨ h = '2') ∧
    y = natOfDigits [a, b, c, e] ∧ m = natOfDigits [m1, m2] ∧
    d = (if h = '1' then 1 else 16))

example : parseTime "2023" = .ts 2023 1 1 := by decide
example : parseTime "202303" = .ts 2023 3 1 := by decide
example : parseTime "20230228" = .ts 2023 2 28 := by decide
example : parseTime "2023Q3" = .ts 2023 7 1 := by decide
example : parseTime "2023S2" = .ts 2023 7 1 := by decide
example : parseTime "202303S2" = .ts 2023 3 16 := by decide
example : parseTime "202313" = .raised := by decide
example : parseTime "2500" = .raised := by decide
example : parseTime "garbage" = .nat := by decide
example : parseTime "2023135" = .nat := by decide
example : parseTime "2023Q5" = .nat := by decide

/-! ### Shape equations for the match (all definitional) -/

theorem pRest_nil (y : Nat) : pRest y [] = some (.yearOnly y) := rfl

theorem pRest_one (y : Nat) (c1 : Char) : pRest y [c1] = none := rfl

theorem pRest_two (y : Nat) (c1 c2 : Char) :
    pRest y [c1, c2] =
      (if c1 = 'Q' then
        if '1' ≤ c2 ∧ c2 ≤ '4' then some (.quarter y (charVal c2)) else none
      else if c1 = 'S' then
        if c2 = '1' ∨ c2 = '2' then some (.semi y (charVal c2)) else none
      else if c1.isDigit && c2.isDigit then
        some (.month y (natOfDigits [c1, c2]))
      else none) := rfl

theorem pRest_three (y : Nat) (c1 c2 c3 : Char) : pRest y [c1, c2, c3] = none := rfl

theorem pRest_four (y : Nat) (c1 c2 c3 c4 : Char) :
    pRest y [c1, c2, c3, c4] =
      (if c1.isDigit && c2.isDigit then
        if c3 = 'S' then
          if c4 = '1' ∨ c4 = '2' then
            some (.semiMonth y (natOfDigits [c1, c2]) (charVal c4))
          else none
        else if c3.isDigit && c4.isDigit then
          some (.day y (natOfDigits [c1, c2]) (natOfDigits [c3, c4]))
        else none
      else none) := rfl

theorem pRest_five (y : Nat) (c1 c2 c3 c4 c5 : Char) (t : List Char) :
    pRest y (c1 :: c2 :: c3 :: c4 :: c5 :: t) = none := rfl

theorem pMatch_cons (y1 y2 y3 y4 : Char) (rest : List Char) :
    pMatch (y1 :: y2 :: y3 :: y4 :: rest) =
      (if y1.isDigit && y2.isDigit && y3.isDigit && y4.isDigit then
        pRest (natOfDigits [y1, y2, y3, y4]) rest
      else none) := rfl

theorem pMatch_nil : pMatch [] = none := rfl

theorem pMatch_one (c1 : Char) : pMatch [c1] = none := rfl

theorem pMatch_two (c1 c2 : Char) : pMatch [c1, c2] = none := rfl

theorem pMatch_three (c1 c2 c3 : Char) : pMatch [c1, c2, c3] = none := rfl

theorem isDigit_ne_Q {c : Char} (h : c.isDigit = true) : c ≠ 'Q' := by
  intro he; subst he; exact absurd h (by decide)

theorem isDigit_ne_S {c : Char} (h : c.isDigit = true) : c ≠ 'S' := by
  intro he; subst he; exact absurd h (by decide)

/-- Completeness of the regex match over the six spec patterns: every string
the regex accepts is an instance of one of the six patterns of the
specification, with a well-defined first-of-period target date. -/
theorem pMatch_specSixDate (s : String) (g : TimeGroups)
    (hm : pMatch s.data = some g) : ∃ y m d, specSixDate s y m d := by
  rcases hds : s.data with _ | ⟨y1, _ | ⟨y2, _ | ⟨y3, _ | ⟨y4, rest⟩⟩⟩⟩ <;>
    rw [hds] at hm
  · rw [pMatch_nil] at hm; cases hm
  · rw [pMatch_one] at hm; cases hm
  · rw [pMatch_two] at hm; cases hm
  · rw [pMatch_three] at hm; cases hm
  · rw [pMatch_cons] at hm
    by_cases hdig : (y1.isDigit && y2.isDigit && y3.isDigit && y4.isDigit) = true
    · simp only [hdig, if_true] at hm
      simp only [Bool.and_eq_true] at hdig
      obtain ⟨⟨⟨h1, h2⟩, h3⟩, h4⟩ := hdig
      rcases rest with _ | ⟨c1, _ | ⟨c2, _ | ⟨c3, _ | ⟨c4, _ | ⟨c5, t⟩⟩⟩⟩⟩
      · exact ⟨_, 1, 1, Or.inl ⟨y1, y2, y3, y4, hds, h1, h2, h3, h4, rfl, rfl, rfl⟩⟩
      · rw [pRest_one] at hm; cases hm
      · rw [pRest_two] at hm
        by_cases hQ : c1 = 'Q'
        · rw [if_pos hQ] at hm
          by_cases hq : ('1' ≤ c2 ∧ c2 ≤ '4')
          · exact ⟨_, 3 * (charVal c2 - 1) + 1, 1, Or.inr (Or.inr (Or.inr (Or.inl
              ⟨y1, y2, y3, y4, c2, by rw [hds, hQ], h1, h2, h3, h4, hq.1, hq.2,
                rfl, rfl, rfl⟩)))⟩
          · rw [if_neg hq] at hm; cases hm
        · rw [if_neg hQ] at hm
          by_cases hS : c1 = 'S'
          · rw [if_pos hS] at hm
            by_cases hs : (c2 = '1' ∨ c2 = '2')
            · exact ⟨_, 6 * (charVal c2 - 1) + 1, 1, Or.inr (Or.inr (Or.inr (Or.inr (Or.inl
                ⟨y1, y2, y3, y4, c2, by rw [hds, hS], h1, h2, h3, h4, hs,
                  rfl, rfl, rfl⟩))))⟩
            · rw [if_neg hs] at hm; cases hm
          · rw [if_neg hS] at hm
            by_cases hdd : (c1.isDigit && c2.isDigit) = true
            · rw [if_pos hdd] at hm
              rw [Bool.and_eq_true] at hdd
              exact ⟨_, natOfDigits [c1, c2], 1, Or.inr (Or.inl
                ⟨y1, y2, y3, y4, c1, c2, hds, h1, h2, h3, h4, hdd.1, hdd.2,
                  rfl, rfl, rfl⟩)⟩
            · rw [if_neg hdd] at hm; cases hm
      · rw [pRest_three] at hm; cases hm
      · rw [pRest_four] at hm
        by_cases hdd : (c1.isDigit && c2.isDigit) = true
        · rw [if_pos hdd] at hm
          rw [Bool.and_eq_true] at hdd
          by_cases hS : c3 = 'S'
          · rw [if_pos hS] at hm
            by_cases hs : (c4 = '1' ∨ c4 = '2')
            · exact ⟨_, natOfDigits [c1, c2], if c4 = '1' then 1 else 16,
                Or.inr (Or.inr (Or.inr (Or.inr (Or.inr
                  ⟨y1, y2, y3, y4, c1, c2, c4, by rw [hds, hS], h1, h2, h3, h4,
                    hdd.1, hdd.2, hs, rfl, rfl, rfl⟩))))⟩
            · rw [if_neg hs] at hm; cases hm
          · rw [if_neg hS] at hm
            by_cases hdd2 : (c3.isDigit && c4.isDigit) = true
            · rw [Bool.and_eq_true] at hdd2
              exact ⟨_, natOfDigits [c1, c2], natOfDigits [c3, c4], Or.inr (Or.inr (Or.inl
                ⟨y1, y2, y3, y4, c1, c2, c3, c4, hds, h1, h2, h3, h4,
                  hdd.1, hdd.2, hdd2.1, hdd2.2, rfl, rfl, rfl⟩))⟩
            · rw [if_neg hdd2] at hm; cases hm
        · rw [if_neg hdd] at hm; cases hm
      · rw [pRest_five] at hm; cases hm
    · rw [Bool.not_eq_true] at hdig
      simp only [hdig, Bool.false_eq_true, if_false] at hm
      cases hm

/-- Claim C1 (amended): for every input string matching one of the six fixed
date patterns whose encoded period's first calendar day is a valid pandas
timestamp, `parseTime` returns exactly that day: YYYY gives January 1, YYYYMM
day 1 of the month, YYYYMMDD the exact day, YYYYQq day 1 of month 3*(q-1)+1,
YYYYSs day 1 of month 6*(s-1)+1, YYYYMMSh day 1 (h=1) or day 16 (h=2) of the
month.  (Matching strings whose components do not form such a date make the
`pd.Timestamp` constructor raise; see the counterexample.) -/
theorem parseTime_inRange_patterns (s : String) (y m d : Nat)
    (hp : specSixDate s y m d) (hv : validTimestamp y m d = true) :
    parseTime s = .ts y m d := by
  unfold parseTime
  rcases hp with h | h | h | h | h | h
  · obtain ⟨a, b, c, e, hdata, ha, hb, hc, he, hy, hm, hd⟩ := h
    subst hy hm hd
    rw [hdata, pMatch_cons, ha, hb, hc, he]
    simp only [Bool.and_self, if_true, pRest_nil, groupTimestamp, pdTimestamp, hv, if_pos]
  · obtain ⟨a, b, c, e, m1, m2, hdata, ha, hb, hc, he, h1, h2, hy, hm, hd⟩ := h
    subst hy hm hd
    rw [hdata, pMatch_cons, ha, hb, hc, he]
    simp only [Bool.and_self, if_true, pRest_two]
    rw [if_neg (isDigit_ne_Q h1), if_neg (isDigit_ne_S h1), h1, h2]
    simp only [Bool.and_self, if_true, groupTimestamp, pdTimestamp, hv, if_pos]
  · obtain ⟨a, b, c, e, m1, m2, d1, d2, hdata, ha, hb, hc, he, h1, h2, h3, h4,
      hy, hm, hd⟩ := h
    subst hy hm hd
    rw [hdata, pMatch_cons, ha, hb, hc, he]
    simp only [Bool.and_self, if_true, pRest_four]
    rw [h1, h2, if_neg (isDigit_ne_S h3), h3, h4]
    simp only [Bool.and_self, if_true, groupTimestamp, pdTimestamp, hv, if_pos]
  · obtain ⟨a, b, c, e, q, hdata, ha, hb, hc, he, hq1, hq2, hy, hm, hd⟩ := h
    subst hy hd
    rw [hdata, pMatch_cons, ha, hb, hc, he]
    simp only [Bool.and_self, if_true, pRest_two]
    rw [if_pos ⟨hq1, hq2⟩]
    have hm3 : (charVal q - 1) * 3 + 1 = m := by rw [hm]; ring
    simp only [groupTimestamp, hm3, pdTimestamp, hv, if_pos]
  · obtain ⟨a, b, c, e, h0, hdata, ha, hb, hc, he, hh, hy, hm, hd⟩ := h
    subst hy hd
    rw [hdata, pMatch_cons, ha, hb, hc, he]
    simp only [Bool.and_self, if_true, pRest_two]
    rw [if_neg (show ¬ ('S' : Char) = 'Q' by decide), if_pos hh]
    have hm6 : (charVal h0 - 1) * 6 + 1 = m := by rw [hm]; ring
    simp only [groupTimestamp, hm6, pdTimestamp, hv, if_pos]
  · obtain ⟨a, b, c, e, m1, m2, h0, hdata, ha, hb, hc, he, h1, h2, hh, hy, hm, hd⟩ := h
    subst hy hm
    rw [hdata, pMatch_cons, ha, hb, hc, he]
    simp only [Bool.and_self, if_true, pRest_four]
    rw [h1, h2]
    simp only [Bool.and_self, if_true]
    rw [if_pos hh]
    have hd16 : (if charVal h0 = 1 then 1 else 16) = d := by
      rcases hh with hh | hh <;> subst hh <;> simp [hd, charVal]
    simp only [groupTimestamp, hd16, pdTimestamp, hv, if_pos]

/-- Claim C1, counterexample: "202313" matches the YYYYMM pattern (its encoded
period is month 13 of 2023), but `parseTime` raises a `ValueError` from
`pd.Timestamp(2023, 13, 1)` instead of returning a first-of-period date. -/
theorem parseTime_month13_raises :
    specSixDate "202313" 2023 13 1 ∧ parseTime "202313" = .raised := by
  constructor
  · exact Or.inr (Or.inl ⟨'2', '0', '2', '3', '1', '3', by decide, by decide,
      by decide, by decide, by decide, by decide, by decide, by decide, by decide, rfl⟩)
  · decide

theorem parseTime_inRange_patterns_witness :
    specSixDate "202303" 2023 3 1 ∧ validTimestamp 2023 3 1 = true ∧
    parseTime "202303" = .ts 2023 3 1 := by
  have hs : specSixDate "202303" 2023 3 1 :=
    Or.inr (Or.inl ⟨'2', '0', '2', '3', '0', '3', by decide, by decide, by decide,
      by decide, by decide, by decide, by decide, by decide, by decide, rfl⟩)
  exact ⟨hs, by decide, parseTime_inRange_patterns _ _ _ _ hs (by decide)⟩

/-- Claim C9 (amended): an ASCII input string that matches none of the six
supported date patterns — neither directly nor after discounting the single
trailing newline the regex's `$` accepts — makes `parseTime` return the NaT
sentinel; it never raises on such inputs.  (The ASCII hypothesis scopes the
statement to inputs on which the model's `[0-9]` reading of `\d` is exact;
Python's `\d` also matches Unicode decimal digits.) -/
theorem parseTime_nonmatching_nat (s : String)
    (_hascii : ∀ c ∈ s.data, c.toNat < 128)
    (h1 : ¬ ∃ y m d, specSixDate s y m d)
    (h2 : ¬ ∃ y m d, specSixDate (stripTrailingNewline s) y m d) :
    parseTime s = .nat := by
  unfold parseTime
  cases hm1 : pMatch s.data with
  | some g => exact absurd (pMatch_specSixDate s g hm1) h1
  | none =>
    cases hm2 : pMatch (dropFinalNewline s.data) with
    | none => rfl
    | some g => exact absurd (pMatch_specSixDate (stripTrailingNewline s) g hm2) h2

/-- Claim C9, counterexample: `"202313\n"` matches none of the six date
patterns (no pattern contains a newline), yet `parseTime` raises: the
regex's `$` matches just before the trailing newline, so the match sees
`202313` (month 13 of 2023) and `pd.Timestamp(2023, 13, 1)` raises a
`ValueError` instead of NaT being returned. -/
theorem parseTime_trailing_newline_raises :
    (¬ ∃ y m d, specSixDate "202313\n" y m d) ∧
    parseTime "202313\n" = .raised := by
  constructor
  · rintro ⟨y, m, d, h⟩
    have h7 : ("202313\n").data.length = 7 := rfl
    rcases h with ⟨a, b, c, e, hd, -⟩ | ⟨a, b, c, e, m1, m2, hd, -⟩ |
      ⟨a, b, c, e, m1, m2, d1, d2, hd, -⟩ | ⟨a, b, c, e, q, hd, -⟩ |
      ⟨a, b, c, e, q, hd, -⟩ | ⟨a, b, c, e, m1, m2, q, hd, -⟩ <;>
      · rw [hd] at h7
        simp at h7
  · decide

theorem parseTime_nonmatching_nat_witness :
    (∀ c ∈ "hello".data, c.toNat < 128) ∧
    (¬ ∃ y m d, specSixDate "hello" y m d) ∧
    (¬ ∃ y m d, specSixDate (stripTrailingNewline "hello") y m d) ∧
    parseTime "hello" = .nat := by
  have hno : ¬ ∃ y m d, specSixDate "hello" y m d := by
    rintro ⟨y, m, d, h⟩
    have h5 : ("hello").data.length = 5 := rfl
    rcases h with ⟨a, b, c, e, hd, -⟩ | ⟨a, b, c, e, m1, m2, hd, -⟩ |
      ⟨a, b, c, e, m1, m2, d1, d2, hd, -⟩ | ⟨a, b, c, e, q, hd, -⟩ |
      ⟨a, b, c, e, q, hd, -⟩ | ⟨a, b, c, e, m1, m2, q, hd, -⟩ <;>
      · rw [hd] at h5
        simp at h5
  have hno2 : ¬ ∃ y m d, specSixDate (stripTrailingNewline "hello") y m d := by
    rw [show stripTrailingNewline "hello" = "hello" from by decide]
    exact hno
  exact ⟨by decide, hno, hno2, parseTime_nonmatching_nat _ (by decide) hno hno2⟩

/-! ### String helpers used by `processECOSData` -/

/-- Python `str.strip()`: strip whitespace from both ends.  (Python also
strips a few exotic Unicode spaces; no property below depends on those.) -/
def pyStrip (s : String) : String :=
  String.mk (((s.data.dropWhile Char.isWhitespace).reverse.dropWhile
    Char.isWhitespace).reverse)

/-- The statistic-name cleanup of `processECOSData`:
`re.sub(r'^[\d\.]+\s*', '', stat_name)` removes one leading run of digits and
dots together with the whitespace after it; a name that does not start with a
digit or dot is unchanged (the `+` needs at least one such character). -/
def cleanStatName (s : String) : String :=
  let cs := s.data
  let rest := cs.dropWhile (fun c => c.isDigit || c = '.')
  if rest.length = cs.length then s
  else String.mk (rest.dropWhile Char.isWhitespace)

/-- One exponent part `e`/`E`, optional sign, at least one digit. -/
def expPartOk (cs : List Char) : Bool :=
  match cs with
  | [] => true
  | e :: r =>
    (e = 'e' || e = 'E') &&
    (let r2 := match r with
      | '+' :: t => t
      | '-' :: t => t
      | t => t
     !r2.isEmpty && r2.all Char.isDigit)

/-- Decimal part of a float string: digits, optionally with one dot, at least
one digit overall, then an optional exponent. -/
def decimalOk (cs : List Char) : Bool :=
  let intPart := cs.takeWhile Char.isDigit
  let rest := cs.dropWhile Char.isDigit
  match rest with
  | '.' :: r2 =>
    let fracPart := r2.takeWhile Char.isDigit
    let rest2 := r2.dropWhile Char.isDigit
    (!intPart.isEmpty || !fracPart.isEmpty) && expPartOk rest2
  | _ => !intPart.isEmpty && expPartOk rest

/-- Model of `pd.to_numeric(s, errors="coerce")` yielding a non-NaN number:
optional surrounding whitespace, optional sign, then either a decimal/float
literal or an infinity word.  The strings `"nan"`/`"NaN"` coerce to NaN, and
anything unparseable coerces to NaN, so both return `false`. -/
def isNumericString (s : String) : Bool :=
  let cs := (s.data.dropWhile Char.isWhitespace).reverse.dropWhile
    Char.isWhitespace |>.reverse
  let cs := match cs with
    | '+' :: t => t
    | '-' :: t => t
    | t => t
  let low := cs.map Char.toLower
  low = ['i', 'n', 'f'] || low = ['i', 'n', 'f', 'i', 'n', 'i', 't', 'y'] ||
    decimalOk cs

/-! ### Sorted insertion (how pandas orders a pivot's index and columns) -/

/-- Insert into a sorted, duplicate-free list, keeping it so. -/
def insSorted [DecidableEq α] (le : α → α → Bool) (a : α) : List α → List α
  | [] => [a]
  | b :: bs => if a = b then b :: bs else if le a b then a :: b :: bs else b :: insSorted le a bs

/-- The sorted list of distinct elements of `l` (pandas sorts a pivot table's
index and columns ascending). -/
def sortDedup [DecidableEq α] (le : α → α → Bool) (l : List α) : List α :=
  l.foldl (fun acc a => insSorted le a acc) []

theorem mem_insSorted [DecidableEq α] (le : α → α → Bool) (a x : α) (l : List α) :
    x ∈ insSorted le a l ↔ x = a ∨ x ∈ l := by
  induction l with
  | nil => simp [insSorted]
  | cons b bs ih =>
    simp only [insSorted]
    split
    · next h => subst h; simp only [List.mem_cons]; tauto
    · split
      · simp only [List.mem_cons]
      · simp only [List.mem_cons, ih]; tauto

theorem mem_sortDedup [DecidableEq α] (le : α → α → Bool) (x : α) (l : List α) :
    x ∈ sortDedup le l ↔ x ∈ l := by
  suffices h : ∀ acc : List α, x ∈ l.foldl (fun acc a => insSorted le a acc) acc ↔
      x ∈ acc ∨ x ∈ l by
    rw [sortDedup, h []]; simp
  induction l with
  | nil => intro acc; simp
  | cons b bs ih =>
    intro acc
    simp only [List.foldl_cons, ih, mem_insSorted, List.mem_cons]
    tauto

/-- Lexicographic order on strings, as Python compares `str` (by code point). -/
def strLe (a b : String) : Bool := a ≤ b

/-- Order on dates (chronological). -/
def dateLe (a b : Date) : Bool := dateKey a.year a.month a.day ≤ dateKey b.year b.month b.day

/-- Order on index labels of a frame whose index may hold NaT (`none`); pandas
sorts NaT to the end. -/
def optDateLe (a b : Option Date) : Bool :=
  match a, b with
  | none, _ => false
  | some _, none => true
  | some x, some y => dateLe x y

/-! ### Rows and frames of `processECOSData`

One row of a `StatisticSearch` response.  In the source the rows are JSON
dicts sharing one key set; `pd.DataFrame(rows)` turns a key into a column,
with NaN where a row lacks it.  A category column that is absent from every
row and one whose values are all null behave identically in
`processECOSData` (`col in df.columns and df[col].notna().any()` fails for
both), so each `ITEM_NAMEk` is one `Option String` (`none` = null/absent). -/

structure ECOSRow where
  STAT_NAME : String
  TIME : String
  DATA_VALUE : String
  ITEM_NAME1 : Option String := none
  ITEM_NAME2 : Option String := none
  ITEM_NAME3 : Option String := none
  ITEM_NAME4 : Option String := none
deriving DecidableEq

/-- The `StatisticSearch` member of a response body: its `row` key may be
missing or null (`none`). -/
structure SSObj where
  row : Option (List ECOSRow)
deriving DecidableEq

/-- A parsed `StatisticSearch` response body: the `StatisticSearch` key may be
missing (`none`). -/
structure RawData where
  statisticSearch : Option SSObj
deriving DecidableEq

/-- `data.get("StatisticSearch", {}).get("row", [])`. -/
def rowsOf (d : RawData) : List ECOSRow :=
  match d.statisticSearch with
  | none => []
  | some ss => ss.row.getD []

/-- Python exceptions distinguished by this development. -/
inductive PyExc where
  | valueError
  | fileExistsError
  | lookupError
  | exception
deriving DecidableEq

/-- The four candidate category columns. -/
inductive NameCol where
  | n1 | n2 | n3 | n4
deriving DecidableEq

def itemName : NameCol → ECOSRow → Option String
  | .n1, r => r.ITEM_NAME1
  | .n2, r => r.ITEM_NAME2
  | .n3, r => r.ITEM_NAME3
  | .n4, r => r.ITEM_NAME4

/-- Position in the priority order `ITEM_NAME4, ITEM_NAME3, ITEM_NAME2,
ITEM_NAME1` the source loops over (0 = most specific, tried first). -/
def priorityIdx : NameCol → Nat
  | .n4 => 0
  | .n3 => 1
  | .n2 => 2
  | .n1 => 3

/-- The `for col in [...]: if col in df.columns and df[col].notna().any()`
loop: the first of `ITEM_NAME4,3,2,1` with at least one non-null value. -/
def pickNameCol (rows : List ECOSRow) : Option NameCol :=
  [NameCol.n4, NameCol.n3, NameCol.n2, NameCol.n1].find?
    (fun k => rows.any (fun r => (itemName k r).isSome))

/-- `astype(str)` applied to a cell: a null cell (float NaN) prints as
`"nan"`. -/
def pdStr (v : Option String) : String :=
  match v with
  | none => "nan"
  | some s => s

/-- `df[name_col].astype(str).str.strip()` on one row: the pivot's category
value. -/
def catOf (k : NameCol) (r : ECOSRow) : String := pyStrip (pdStr (itemName k r))

/-- The parsed time of a row as an index label: `none` for NaT (and never
consulted on a raising row — `processECOSData` has already raised). -/
def dateOf (r : ECOSRow) : Option Date :=
  match parseTime r.TIME with
  | .ts y m d => some ⟨y, m, d⟩
  | _ => none

/-- Whether `df["TIME"].map(self.parseTime)` raises: some row's `TIME` makes
`pd.Timestamp` raise. -/
def anyRaised (rows : List ECOSRow) : Bool :=
  rows.any (fun r => decide (parseTime r.TIME = .raised))

/-- `pd.to_numeric(s, errors="coerce")` as a cell: the numeric payload keeps
its source string, a NaN cell is `none`. -/
def toNumericOpt (s : String) : Option String :=
  if isNumericString s then some s else none

/-- A data frame as `processECOSData` returns it: index labels (dates, or
`none` for NaT) and named columns of cells aligned with the index (`none` =
NaN). -/
structure PDF where
  index : List (Option Date)
  cols : List (String × List (Option String))
deriving DecidableEq

/-- Output column naming: the cleaned statistic name, suffixed with the
category value when that is non-empty. -/
def renameCol (stat c : String) : String :=
  if c = "" then stat else stat ++ "_" ++ c

/-- Membership of one row in the pivot group of time `t` and category `c`
with a non-NaN value. -/
def rowLive (k : NameCol) (t : Date) (c : String) (r : ECOSRow) : Bool :=
  decide (dateOf r = some t) && decide (catOf k r = c) && isNumericString r.DATA_VALUE

/-- The aggregated cell of the pivot at `(t, c)`: `aggfunc="first"` takes the
first non-NaN value of the group in the original row order, and an empty or
all-NaN group yields NaN. -/
def firstVal (k : NameCol) (rows : List ECOSRow) (t : Date) (c : String) :
    Option String :=
  ((rows.filter (rowLive k t c)).head?).map (fun r => r.DATA_VALUE)

/-- `df.pivot_table(index="TIME", columns="col", values="DATA_VALUE",
aggfunc="first").sort_index()` with columns renamed, split into its pieces
(`pivotIndex`, `pivotCats`, `keptCats`, `pivotDF`):

* the underlying groupby drops NaT keys, and `pivot_table`'s default
  `dropna=True` then drops every `(time, category)` group whose aggregated
  value is NaN (`agged.dropna(how="all")` — the lone value column is
  `DATA_VALUE`); the index is therefore the sorted set of distinct non-NaT
  times possessed by at least one row with a numeric value;
* one column per distinct category value among the surviving groups: a
  category with no row having both a non-NaT time and a numeric value gets
  no column (its groups are all dropped, and the final
  `dropna(how="all", axis=1)` would remove an all-NaN column anyway);
* columns are renamed `stat` / `stat_c` by `renameCol`. -/
def pivotIndex (rows : List ECOSRow) : List Date :=
  sortDedup dateLe ((rows.filter (fun r => isNumericString r.DATA_VALUE)).filterMap dateOf)

/-- The distinct category values, sorted as pandas sorts the pivot columns. -/
def pivotCats (k : NameCol) (rows : List ECOSRow) : List String :=
  sortDedup strLe (rows.map (catOf k))

/-- The categories surviving `dropna=True`: at least one non-NaN cell. -/
def keptCats (k : NameCol) (rows : List ECOSRow) : List String :=
  (pivotCats k rows).filter
    (fun c => (pivotIndex rows).any (fun t => (firstVal k rows t c).isSome))

def pivotDF (statName : String) (k : NameCol) (rows : List ECOSRow) : PDF :=
  ⟨(pivotIndex rows).map some,
    (keptCats k rows).map
      (fun c => (renameCol statName c,
        (pivotIndex rows).map (fun t => firstVal k rows t c)))⟩

/-- `Ecos.processECOSData`: empty rows give an empty frame and empty detail;
otherwise parse the times (raising if any time raises), pick the category
column, and either fall back to the single-column frame (no category column:
the index keeps row order, duplicates and NaT, as `set_index` does) or pivot.
The detail is the first row. -/
def processECOSData (d : RawData) : Except PyExc (PDF × Option ECOSRow) :=
  match rowsOf d with
  | [] => .ok (⟨[], []⟩, none)
  | first :: rest =>
    if anyRaised (first :: rest) then .error .valueError
    else
      match pickNameCol (first :: rest) with
      | none =>
        .ok (⟨(first :: rest).map dateOf,
          [(cleanStatName first.STAT_NAME,
            (first :: rest).map (fun r => toNumericOpt r.DATA_VALUE))]⟩, some first)
      | some k =>
        .ok (pivotDF (cleanStatName first.STAT_NAME) k (first :: rest), some first)

/-- Claim C10: an input body lacking the `StatisticSearch` key, lacking the
`row` key under it, or carrying an empty row list, makes `processECOSData`
return an empty frame and empty metadata instead of raising. -/
theorem processECOSData_empty_rows (d : RawData) (h : rowsOf d = []) :
    processECOSData d = .ok (⟨[], []⟩, none) := by
  unfold processECOSData
  rw [h]

theorem processECOSData_empty_rows_witness :
    rowsOf ⟨none⟩ = [] ∧ processECOSData ⟨none⟩ = .ok (⟨[], []⟩, none) :=
  ⟨rfl, processECOSData_empty_rows ⟨none⟩ rfl⟩

theorem firstVal_isSome_iff (k : NameCol) (rows : List ECOSRow) (t : Date) (c : String) :
    (firstVal k rows t c).isSome = true ↔ ∃ r ∈ rows, rowLive k t c r = true := by
  induction rows with
  | nil => simp [firstVal]
  | cons a l ih =>
    by_cases hp : rowLive k t c a = true
    · have hrw : firstVal k (a :: l) t c = some a.DATA_VALUE := by
        unfold firstVal
        rw [List.filter_cons, if_pos hp]
        rfl
      rw [hrw]
      constructor
      · intro _
        exact ⟨a, List.mem_cons_self a l, hp⟩
      · intro _
        rfl
    · have hrw : firstVal k (a :: l) t c = firstVal k l t c := by
        unfold firstVal
        rw [List.filter_cons, if_neg hp]
      rw [hrw, ih]
      constructor
      · rintro ⟨r, hr, hl⟩
        exact ⟨r, List.mem_cons_of_mem _ hr, hl⟩
      · rintro ⟨r, hr, hl⟩
        rcases List.mem_cons.mp hr with rfl | hr2
        · exact absurd hl hp
        · exact ⟨r, hr2, hl⟩

/-- The names of the pivot's columns are exactly the renamings of the
categories possessing a row with a non-NaT time and a numeric value. -/
theorem mem_pivotDF_cols (statName : String) (k : NameCol) (rows : List ECOSRow)
    (nm : String) :
    nm ∈ (pivotDF statName k rows).cols.map Prod.fst ↔
      ∃ c : String, (∃ r ∈ rows, catOf k r = c ∧ (dateOf r).isSome = true ∧
        isNumericString r.DATA_VALUE = true) ∧ nm = renameCol statName c := by
  unfold pivotDF
  simp only [List.map_map]
  constructor
  · intro h
    rw [List.mem_map] at h
    obtain ⟨c, hc, hnm⟩ := h
    rw [keptCats, List.mem_filter] at hc
    obtain ⟨hcats, hpred⟩ := hc
    rw [List.any_eq_true] at hpred
    obtain ⟨t, ht, hsome⟩ := hpred
    rw [firstVal_isSome_iff] at hsome
    obtain ⟨r, hr, hlive⟩ := hsome
    unfold rowLive at hlive
    simp only [Bool.and_eq_true, decide_eq_true_eq] at hlive
    exact ⟨c, ⟨r, hr, hlive.1.2, by rw [hlive.1.1]; rfl, hlive.2⟩, hnm.symm⟩
  · rintro ⟨c, ⟨r, hr, hcat, hdate, hnum⟩, hnm⟩
    rw [List.mem_map]
    refine ⟨c, ?_, hnm.symm⟩
    rw [keptCats, List.mem_filter]
    obtain ⟨t, ht⟩ := Option.isSome_iff_exists.mp hdate
    constructor
    · rw [pivotCats, mem_sortDedup]
      exact List.mem_map.mpr ⟨r, hr, hcat⟩
    · rw [List.any_eq_true]
      refine ⟨t, ?_, ?_⟩
      · rw [pivotIndex, mem_sortDedup]
        exact List.mem_filterMap.mpr ⟨r, List.mem_filter.mpr ⟨hr, hnum⟩, ht⟩
      · rw [firstVal_isSome_iff]
        exact ⟨r, hr, by unfold rowLive; simp [ht, hcat, hnum]⟩

theorem find?_cons_eq {α : Type} (p : α → Bool) (a : α) (l : List α) :
    List.find? p (a :: l) = if p a then some a else List.find? p l := by
  by_cases h : p a = true
  · rw [if_pos h]
    exact List.find?_cons_of_pos _ h
  · rw [if_neg h]
    exact List.find?_cons_of_neg _ (by simpa using h)

theorem noneFor (rows : List ECOSRow) (j : NameCol)
    (h : rows.any (fun r => (itemName j r).isSome) = false) :
    ∀ r ∈ rows, itemName j r = none := by
  intro r hr
  rw [List.any_eq_false] at h
  have h2 := h r hr
  cases hi : itemName j r with
  | none => rfl
  | some v => exact absurd (by rw [hi]; rfl) h2

/-- The chosen category column is the first of `ITEM_NAME4, 3, 2, 1` with at
least one non-null value: earlier candidates are everywhere null. -/
theorem pickNameCol_spec (rows : List ECOSRow) (k : NameCol)
    (hk : pickNameCol rows = some k) :
    (∃ r ∈ rows, (itemName k r).isSome = true) ∧
      ∀ j : NameCol, priorityIdx j < priorityIdx k → ∀ r ∈ rows, itemName j r = none := by
  unfold pickNameCol at hk
  rw [find?_cons_eq, find?_cons_eq, find?_cons_eq, find?_cons_eq] at hk
  by_cases h4 : rows.any (fun r => (itemName NameCol.n4 r).isSome) = true
  · rw [if_pos h4] at hk
    cases hk
    refine ⟨List.any_eq_true.mp h4, ?_⟩
    intro j hj
    exfalso
    cases j <;> simp [priorityIdx] at hj
  · rw [if_neg h4] at hk
    rw [Bool.not_eq_true] at h4
    by_cases h3 : rows.any (fun r => (itemName NameCol.n3 r).isSome) = true
    · rw [if_pos h3] at hk
      cases hk
      refine ⟨List.any_eq_true.mp h3, ?_⟩
      intro j hj
      cases j <;> simp [priorityIdx] at hj
      exact noneFor rows _ h4
    · rw [if_neg h3] at hk
      rw [Bool.not_eq_true] at h3
      by_cases h2 : rows.any (fun r => (itemName NameCol.n2 r).isSome) = true
      · rw [if_pos h2] at hk
        cases hk
        refine ⟨List.any_eq_true.mp h2, ?_⟩
        intro j hj
        cases j <;> simp [priorityIdx] at hj
        · exact noneFor rows _ h3
        · exact noneFor rows _ h4
      · rw [if_neg h2] at hk
        rw [Bool.not_eq_true] at h2
        by_cases h1 : rows.any (fun r => (itemName NameCol.n1 r).isSome) = true
        · rw [if_pos h1] at hk
          cases hk
          refine ⟨List.any_eq_true.mp h1, ?_⟩
          intro j hj
          cases j <;> simp [priorityIdx] at hj
          · exact noneFor rows _ h2
          · exact noneFor rows _ h3
          · exact noneFor rows _ h4
        · rw [if_neg h1] at hk
          cases hk

/-- Claim C2 (amended): for a non-empty row set (whose times do not make
`pd.Timestamp` raise) pivoted by `processECOSData`, the category column is
the first of `ITEM_NAME4, ITEM_NAME3, ITEM_NAME2, ITEM_NAME1` with at least
one non-null value; the output has one column per distinct stripped category
value THAT HAS at least one row with a parseable (non-NaT) time and a numeric
`DATA_VALUE` (pandas `pivot_table` drops all-NaN columns); and each column is
named `stat` for the empty category and `stat_c` otherwise, with `stat` the
first row's `STAT_NAME` cleaned of leading digits and dots. -/
theorem processECOSData_pivot_spec (d : RawData) (first : ECOSRow)
    (rest : List ECOSRow) (k : NameCol)
    (hrows : rowsOf d = first :: rest)
    (hnr : ∀ r ∈ first :: rest, parseTime r.TIME ≠ .raised)
    (hk : pickNameCol (first :: rest) = some k) :
    ((∃ r ∈ first :: rest, (itemName k r).isSome = true) ∧
      (∀ j : NameCol, priorityIdx j < priorityIdx k →
        ∀ r ∈ first :: rest, itemName j r = none)) ∧
    processECOSData d =
      .ok (pivotDF (cleanStatName first.STAT_NAME) k (first :: rest), some first) ∧
    (∀ nm : String,
      nm ∈ (pivotDF (cleanStatName first.STAT_NAME) k (first :: rest)).cols.map Prod.fst ↔
        ∃ c : String, (∃ r ∈ first :: rest, catOf k r = c ∧ (dateOf r).isSome = true ∧
          isNumericString r.DATA_VALUE = true) ∧
          nm = renameCol (cleanStatName first.STAT_NAME) c) := by
  refine ⟨pickNameCol_spec _ _ hk, ?_, fun nm => mem_pivotDF_cols _ _ _ _⟩
  have hA : anyRaised (first :: rest) = false := by
    rw [anyRaised, List.any_eq_false]
    intro r hr
    simp only [decide_eq_true_eq]
    exact hnr r hr
  unfold processECOSData
  rw [hrows]
  simp only [hA, Bool.false_eq_true, if_false, hk]

/-- One row with category `"A"` but a `DATA_VALUE` that `to_numeric` coerces
to NaN. -/
def cexRow : ECOSRow := ⟨"X", "2023", "abc", some "A", none, none, none⟩

def cexData : RawData := ⟨some ⟨some [cexRow]⟩⟩

/-- Claim C2, counterexample: the rows of `cexData` have exactly one distinct
stripped category value, `"A"` (and `ITEM_NAME1` is the chosen column), yet
the pivoted frame is completely empty — `pivot_table`'s default
`dropna=True` drops the lone `(2023-01-01, "A")` group because its only
value, coerced from `"abc"`, is NaN, leaving an empty index and no columns.
The claim promises one output column named `"X_A"`. -/
theorem processECOSData_allNaN_column_dropped :
    (rowsOf cexData).map (fun r => catOf NameCol.n1 r) = ["A"] ∧
    pickNameCol (rowsOf cexData) = some NameCol.n1 ∧
    processECOSData cexData = .ok (⟨[], []⟩, some cexRow) := by
  refine ⟨rfl, rfl, ?_⟩
  rfl

theorem processECOSData_pivot_spec_witness :
    rowsOf ⟨some ⟨some [⟨"1. GDP", "202301", "2.5", some "A", none, none, none⟩]⟩⟩ =
      [⟨"1. GDP", "202301", "2.5", some "A", none, none, none⟩] ∧
    (∀ r ∈ [(⟨"1. GDP", "202301", "2.5", some "A", none, none, none⟩ : ECOSRow)],
      parseTime r.TIME ≠ .raised) ∧
    pickNameCol [⟨"1. GDP", "202301", "2.5", some "A", none, none, none⟩] =
      some NameCol.n1 ∧
    processECOSData ⟨some ⟨some [⟨"1. GDP", "202301", "2.5", some "A", none, none, none⟩]⟩⟩ =
      .ok (pivotDF (cleanStatName "1. GDP") NameCol.n1
        [⟨"1. GDP", "202301", "2.5", some "A", none, none, none⟩], some
          ⟨"1. GDP", "202301", "2.5", some "A", none, none, none⟩) ∧
    ("GDP_A" ∈ (pivotDF (cleanStatName "1. GDP") NameCol.n1
        [⟨"1. GDP", "202301", "2.5", some "A", none, none, none⟩]).cols.map Prod.fst ↔
      ∃ c : String, (∃ r ∈ [(⟨"1. GDP", "202301", "2.5", some "A", none, none, none⟩ : ECOSRow)],
        catOf NameCol.n1 r = c ∧ (dateOf r).isSome = true ∧
          isNumericString r.DATA_VALUE = true) ∧
        "GDP_A" = renameCol (cleanStatName "1. GDP") c) := by
  have h := processECOSData_pivot_spec
    ⟨some ⟨some [⟨"1. GDP", "202301", "2.5", some "A", none, none, none⟩]⟩⟩
    ⟨"1. GDP", "202301", "2.5", some "A", none, none, none⟩ [] NameCol.n1
    rfl (by decide) rfl
  exact ⟨rfl, by decide, rfl, h.2.1, h.2.2 "GDP_A"⟩

/-! ### JSON values and `Ecos.requestJson` -/

/-- A parsed JSON value. -/
inductive JVal where
  | str (s : String)
  | num (n : Int)
  | obj (kvs : List (String × JVal))
  | arr (xs : List JVal)

/-- Dict lookup (`'RESULT' in data` / `data['RESULT']`): parsed JSON objects
have unique keys, so the first match is the value. -/
def jlookup : List (String × JVal) → String → Option JVal
  | [], _ => none
  | (k, v) :: rest, key => if k = key then some v else jlookup rest key

/-- Python `==` between a JSON value and a string literal: only a string can
compare equal. -/
def jeqStr (v : JVal) (t : String) : Bool :=
  match v with
  | .str s => s = t
  | _ => false

/-- `Ecos.requestJson`, on a response with the given HTTP status and parsed
(object) body: a non-200 status raises `ValueError`; then
`'RESULT' in data and data['RESULT']['CODE'] == 'INFO-200'` raises
`FileExistsError` on the `INFO-200` code — but when `RESULT` is present and
is not a mapping with a `CODE` key, the subscript itself raises
(`KeyError`/`TypeError`, modelled as `.lookupError`); otherwise the body is
returned unchanged. -/
def requestJson (status : Nat) (body : List (String × JVal)) :
    Except PyExc (List (String × JVal)) :=
  if status ≠ 200 then .error .valueError
  else
    match jlookup body "RESULT" with
    | none => .ok body
    | some (.obj rkvs) =>
      match jlookup rkvs "CODE" with
      | none => .error .lookupError
      | some v =>
        if jeqStr v "INFO-200" then .error .fileExistsError else .ok body
    | some _ => .error .lookupError

/-- Claim C3 (amended): `requestJson` raises if and only if the HTTP status is
not 200 (`ValueError`), or the body's `RESULT` value is not a mapping
containing a `CODE` key (a lookup/`TypeError`), or `RESULT.CODE` equals
`INFO-200` (`FileExistsError`); in every other case the parsed body is
returned unchanged. -/
theorem requestJson_error_spec (status : Nat) (body : List (String × JVal)) :
    (status ≠ 200 → requestJson status body = .error .valueError) ∧
    (status = 200 → jlookup body "RESULT" = none → requestJson status body = .ok body) ∧
    (status = 200 → ∀ rkvs, jlookup body "RESULT" = some (.obj rkvs) →
      (jlookup rkvs "CODE" = none → requestJson status body = .error .lookupError) ∧
      (∀ v, jlookup rkvs "CODE" = some v →
        (jeqStr v "INFO-200" = true → requestJson status body = .error .fileExistsError) ∧
        (jeqStr v "INFO-200" = false → requestJson status body = .ok body))) ∧
    (status = 200 → ∀ v, jlookup body "RESULT" = some v → (∀ rkvs, v ≠ .obj rkvs) →
      requestJson status body = .error .lookupError) := by
  refine ⟨?_, ?_, ?_, ?_⟩
  · intro h
    unfold requestJson
    rw [if_pos h]
  · intro h hres
    unfold requestJson
    rw [if_neg (by simp [h])]
    simp only [hres]
  · intro h rkvs hres
    constructor
    · intro hcode
      unfold requestJson
      rw [if_neg (by simp [h])]
      simp only [hres, hcode]
    · intro v hcode
      constructor
      · intro heq
        unfold requestJson
        rw [if_neg (by simp [h])]
        simp only [hres, hcode, heq, if_true]
      · intro heq
        unfold requestJson
        rw [if_neg (by simp [h])]
        simp only [hres, hcode, heq, Bool.false_eq_true, if_false]
  · intro h v hres hno
    unfold requestJson
    rw [if_neg (by simp [h])]
    cases v with
    | obj rkvs => exact absurd rfl (hno rkvs)
    | str s => simp only [hres]
    | num n => simp only [hres]
    | arr xs => simp only [hres]

/-- Claim C3, counterexample: a 200 response whose body is
`{"RESULT": {}}` — the status is fine and `RESULT.CODE` is certainly not
`INFO-200` (there is no `CODE` key at all), yet `requestJson` raises
(`data['RESULT']['CODE']` is a `KeyError`), refuting the claimed
"if and only if". -/
theorem requestJson_missing_code_raises :
    requestJson 200 [("RESULT", JVal.obj [])] = .error .lookupError ∧
    jlookup [("RESULT", JVal.obj [])] "RESULT" = some (JVal.obj []) ∧
    jlookup ([] : List (String × JVal)) "CODE" = none :=
  ⟨rfl, rfl, rfl⟩

/-! ### The candidate filter of `Ecos.getStatDetail` -/

/-- One row of the `StatisticTableList` listing. -/
structure TableRow where
  STAT_NAME : String
  STAT_CODE : String
  CYCLE : Option String := none
deriving DecidableEq

/-- Python `needle in hay` on strings: substring containment. -/
def pyContains (needle hay : String) : Bool :=
  hay.data.tails.any (fun t => needle.data.isPrefixOf t)

/-- Python dict assignment `d[k] = v`: replace the value in place when the key
exists, append otherwise. -/
def dictInsert {β : Type} (l : List (String × β)) (k : String) (v : β) :
    List (String × β) :=
  if l.any (fun p => decide (p.1 = k)) then
    l.map (fun p => if p.1 = k then (k, v) else p)
  else l ++ [(k, v)]

/-- The `candidate_dict` loop of `getStatDetail` (lines 72-75): rows whose
`STAT_NAME` contains the keyword, keyed by `STAT_NAME` in a dict. -/
def statDetailCandidates (keyword : String) (rows : List TableRow) :
    List (String × TableRow) :=
  rows.foldl (fun acc row =>
    if pyContains keyword row.STAT_NAME then dictInsert acc row.STAT_NAME row
    else acc) []

theorem mem_dictInsert {β : Type} (l : List (String × β)) (k : String) (v : β)
    (p : String × β) (h : p ∈ dictInsert l k v) : p ∈ l ∨ p = (k, v) := by
  unfold dictInsert at h
  split at h
  · rw [List.mem_map] at h
    obtain ⟨q, hq, hfq⟩ := h
    by_cases hk : q.1 = k
    · rw [if_pos hk] at hfq
      exact Or.inr hfq.symm
    · rw [if_neg hk] at hfq
      exact Or.inl (hfq ▸ hq)
  · rcases List.mem_append.mp h with h2 | h2
    · exact Or.inl h2
    · exact Or.inr (List.mem_singleton.mp h2)

theorem dictInsert_mem_self {β : Type} (l : List (String × β)) (k : String) (v : β) :
    ∃ w, (k, w) ∈ dictInsert l k v := by
  unfold dictInsert
  split
  · next hany =>
    rw [List.any_eq_true] at hany
    obtain ⟨q, hq, hqk⟩ := hany
    rw [decide_eq_true_eq] at hqk
    exact ⟨v, List.mem_map.mpr ⟨q, hq, by rw [if_pos hqk]⟩⟩
  · exact ⟨v, List.mem_append.mpr (Or.inr (List.mem_singleton.mpr rfl))⟩

theorem dictInsert_mem_keep {β : Type} (l : List (String × β)) (k : String) (v : β)
    (n : String) (h : ∃ w, (n, w) ∈ l) : ∃ w, (n, w) ∈ dictInsert l k v := by
  by_cases hnk : n = k
  · subst hnk
    exact dictInsert_mem_self l n v
  · obtain ⟨w, hw⟩ := h
    unfold dictInsert
    split
    · exact ⟨w, List.mem_map.mpr ⟨(n, w), hw, by rw [if_neg hnk]⟩⟩
    · exact ⟨w, List.mem_append.mpr (Or.inl hw)⟩

theorem statDetailCandidates_sound_aux (keyword : String) (rows0 : List TableRow) :
    ∀ (rows : List TableRow), (∀ r ∈ rows, r ∈ rows0) →
    ∀ (acc : List (String × TableRow)),
      (∀ p ∈ acc, p.2 ∈ rows0 ∧ p.2.STAT_NAME = p.1 ∧ pyContains keyword p.1 = true) →
    ∀ p ∈ rows.foldl (fun acc row =>
        if pyContains keyword row.STAT_NAME then dictInsert acc row.STAT_NAME row
        else acc) acc,
      p.2 ∈ rows0 ∧ p.2.STAT_NAME = p.1 ∧ pyContains keyword p.1 = true := by
  intro rows
  induction rows with
  | nil =>
    intro _ acc hacc p hp
    exact hacc p hp
  | cons a l ih =>
    intro hsub acc hacc p hp
    rw [List.foldl_cons] at hp
    refine ih (fun r hr => hsub r (List.mem_cons_of_mem _ hr)) _ ?_ p hp
    intro q hq
    by_cases hc : pyContains keyword a.STAT_NAME = true
    · rw [if_pos hc] at hq
      rcases mem_dictInsert _ _ _ _ hq with hq2 | hq2
      · exact hacc q hq2
      · subst hq2
        exact ⟨hsub a (List.mem_cons_self a l), rfl, hc⟩
    · rw [if_neg hc] at hq
      exact hacc q hq

theorem statDetailCandidates_complete_aux (keyword : String) :
    ∀ (rows : List TableRow) (acc : List (String × TableRow)) (nm : String),
      ((∃ w, (nm, w) ∈ acc) ∨
        ∃ row ∈ rows, row.STAT_NAME = nm ∧ pyContains keyword nm = true) →
      ∃ w, (nm, w) ∈ rows.foldl (fun acc row =>
        if pyContains keyword row.STAT_NAME then dictInsert acc row.STAT_NAME row
        else acc) acc := by
  intro rows
  induction rows with
  | nil =>
    intro acc nm h
    rcases h with h | ⟨row, hrow, -⟩
    · exact h
    · cases hrow
  | cons a l ih =>
    intro acc nm h
    rw [List.foldl_cons]
    rcases h with h | ⟨row, hrow, hnm, hc⟩
    · refine ih _ nm (Or.inl ?_)
      by_cases hca : pyContains keyword a.STAT_NAME = true
      · rw [if_pos hca]
        exact dictInsert_mem_keep _ _ _ _ h
      · rw [if_neg hca]
        exact h
    · rcases List.mem_cons.mp hrow with rfl | hrow2
      · refine ih _ nm (Or.inl ?_)
        rw [if_pos (by rw [hnm]; exact hc), hnm]
        exact dictInsert_mem_self _ _ _
      · exact ih _ nm (Or.inr ⟨row, hrow2, hnm, hc⟩)

/-- Claim C7 (amended): `getStatDetail` selects only rows whose `STAT_NAME`
contains the keyword, keyed by name, and a name is selected exactly when some
row with that name contains the keyword; but because `candidate_dict` is
keyed by `STAT_NAME`, rows sharing a name collapse to one entry (the last
such row), so a matching row is not necessarily itself selected. -/
theorem statDetailCandidates_keyword_filter (keyword : String) (rows : List TableRow) :
    (∀ p ∈ statDetailCandidates keyword rows,
      p.2 ∈ rows ∧ p.2.STAT_NAME = p.1 ∧ pyContains keyword p.1 = true) ∧
    (∀ nm : String, (∃ w, (nm, w) ∈ statDetailCandidates keyword rows) ↔
      ∃ row ∈ rows, row.STAT_NAME = nm ∧ pyContains keyword nm = true) := by
  constructor
  · intro p hp
    exact statDetailCandidates_sound_aux keyword rows rows (fun r hr => hr) []
      (by intro q hq; cases hq) p hp
  · intro nm
    constructor
    · rintro ⟨w, hw⟩
      have h := statDetailCandidates_sound_aux keyword rows rows (fun r hr => hr) []
        (by intro q hq; cases hq) (nm, w) hw
      exact ⟨w, h.1, h.2.1, h.2.2⟩
    · intro h
      exact statDetailCandidates_complete_aux keyword rows [] nm (Or.inr h)

def dupRow1 : TableRow := ⟨"AB", "c1", none⟩

def dupRow2 : TableRow := ⟨"AB", "c2", none⟩

/-- Claim C7, counterexample: two listing rows share the `STAT_NAME` `"AB"`,
which contains the keyword `"A"`.  The claim says every row whose name
contains the keyword is selected, but the dict keyed by `STAT_NAME` keeps
only the last one: `dupRow1` matches yet is not selected. -/
theorem statDetailCandidates_duplicate_name :
    pyContains "A" dupRow1.STAT_NAME = true ∧ dupRow1 ∈ [dupRow1, dupRow2] ∧
    dupRow1 ≠ dupRow2 ∧
    statDetailCandidates "A" [dupRow1, dupRow2] = [("AB", dupRow2)] ∧
    (∀ nm : String, (nm, dupRow1) ∉ statDetailCandidates "A" [dupRow1, dupRow2]) := by
  refine ⟨by decide, by decide, by decide, by decide, ?_⟩
  intro nm h
  rw [show statDetailCandidates "A" [dupRow1, dupRow2] = [("AB", dupRow2)] by decide] at h
  rw [List.mem_singleton, Prod.mk.injEq] at h
  exact absurd h.2 (by decide)

/-! ### `Ecos.getCode` and `Ecos.getCodes` -/

/-- A metadata dict as `getCode` reads it: the `CYCLE` key is present (its
value may be Python `None` = `none`), `STAT_CODE` is present, and `ITEM_CODE`
may be absent (`none`). -/
structure CodeDict where
  CYCLE : Option String
  STAT_CODE : String
  ITEM_CODE : Option String := none
deriving DecidableEq

/-- The `if 'ITEM_CODE' in code_dict` tail of `getCode`, which computes the
returned request (and unconditionally overwrites any earlier `result`):
`[cycle, [STAT_CODE, ITEM_CODE]]` when `ITEM_CODE` is present, else
`[cycle, [STAT_CODE]]` when `include_subcols`, else `None`. -/
def pureGetCode (cycleVal : String) (cd : CodeDict) (includeSubcols : Bool) :
    Option (String × List String) :=
  match cd.ITEM_CODE with
  | some ic => some (cycleVal, [cd.STAT_CODE, ic])
  | none => if includeSubcols then some (cycleVal, [cd.STAT_CODE]) else none

/-- The `CYCLE is None` loop of `getCode`: it reassigns `cycle_val` at every
row with a non-None `CYCLE`, so it ends at the last such row; when no row has
one, `cycle_val` is never bound and using it raises `NameError`. -/
def lastCycle (rows : List TableRow) : Option String :=
  rows.foldl (fun acc r => match r.CYCLE with | some c => some c | none => acc) none

/-- `Ecos.getCode`.  `fetchRows` stands for the `StatisticTableList` request
plus the `['StatisticTableList']['row']` traversal, which only the
`CYCLE is None` branch performs. -/
def getCode (fetchRows : Except PyExc (List TableRow)) (cd : CodeDict)
    (includeSubcols : Bool) : Except PyExc (Option (String × List String)) :=
  match cd.CYCLE with
  | some cv => .ok (pureGetCode cv cd includeSubcols)
  | none =>
    match fetchRows with
    | .error e => .error e
    | .ok rows =>
      match lastCycle rows with
      | some cv => .ok (pureGetCode cv cd includeSubcols)
      | none => .error .exception

/-- `Ecos.getCodes`: `getCode` over the values of the mapping, keeping the
non-None results in order (exceptions propagate — there is no `try` here). -/
def getCodes (fetchRows : Except PyExc (List TableRow))
    (codesDict : List (String × CodeDict)) (includeSubcols : Bool) :
    Except PyExc (List (String × List String)) :=
  match codesDict with
  | [] => .ok []
  | (_, cd) :: rest =>
    match getCode fetchRows cd includeSubcols with
    | .error e => .error e
    | .ok req =>
      match getCodes fetchRows rest includeSubcols with
      | .error e => .error e
      | .ok l =>
        .ok (match req with
          | some r => r :: l
          | none => l)

/-- Claim C8: with a non-None `CYCLE`, `getCode` returns
`[CYCLE, [STAT_CODE, ITEM_CODE]]` when `ITEM_CODE` is present,
`[CYCLE, [STAT_CODE]]` when absent and `include_subcols` holds, and `None`
otherwise; `getCodes` returns exactly the non-None results over the mapping's
values in order; and every returned request carries a code list of length 1
or 2 (the arity `getECOSData`/`generateECOSData` accepts). -/
theorem getCode_getCodes_spec (fetchRows : Except PyExc (List TableRow))
    (incl : Bool) :
    (∀ (cd : CodeDict) (cv ic : String), cd.CYCLE = some cv → cd.ITEM_CODE = some ic →
      getCode fetchRows cd incl = .ok (some (cv, [cd.STAT_CODE, ic]))) ∧
    (∀ (cd : CodeDict) (cv : String), cd.CYCLE = some cv → cd.ITEM_CODE = none →
      incl = true → getCode fetchRows cd incl = .ok (some (cv, [cd.STAT_CODE]))) ∧
    (∀ (cd : CodeDict) (cv : String), cd.CYCLE = some cv → cd.ITEM_CODE = none →
      incl = false → getCode fetchRows cd incl = .ok none) ∧
    (∀ codesDict : List (String × CodeDict),
      (∀ p ∈ codesDict, (p.2).CYCLE.isSome = true) →
      getCodes fetchRows codesDict incl =
        .ok (codesDict.filterMap (fun p =>
          match (p.2).CYCLE with
          | some cv => pureGetCode cv p.2 incl
          | none => none))) ∧
    (∀ (cd : CodeDict) (cv : String) (req : String × List String),
      pureGetCode cv cd incl = some req → req.2.length = 1 ∨ req.2.length = 2) := by
  refine ⟨?_, ?_, ?_, ?_, ?_⟩
  · intro cd cv ic hcy hic
    unfold getCode pureGetCode
    simp only [hcy, hic]
  · intro cd cv hcy hic hincl
    unfold getCode pureGetCode
    simp only [hcy, hic, hincl, if_true]
  · intro cd cv hcy hic hincl
    unfold getCode pureGetCode
    simp only [hcy, hic, hincl, Bool.false_eq_true, if_false]
  · intro codesDict hv
    induction codesDict with
    | nil => rfl
    | cons p rest ih =>
      obtain ⟨k0, cd⟩ := p
      obtain ⟨cv, hcv0⟩ := Option.isSome_iff_exists.mp (hv (k0, cd) (List.mem_cons_self _ _))
      have hcv : cd.CYCLE = some cv := hcv0
      have hrest := ih (fun q hq => hv q (List.mem_cons_of_mem _ hq))
      show getCodes fetchRows ((k0, cd) :: rest) incl = _
      unfold getCodes
      rw [show getCode fetchRows cd incl = .ok (pureGetCode cv cd incl) by
        unfold getCode; rw [hcv]]
      cases hpg : pureGetCode cv cd incl with
      | some r =>
        rw [hrest, List.filterMap_cons]
        simp [hcv, hpg]
      | none =>
        rw [hrest, List.filterMap_cons]
        simp [hcv, hpg]
  · intro cd cv req hreq
    unfold pureGetCode at hreq
    cases hic : cd.ITEM_CODE with
    | some ic =>
      rw [hic] at hreq
      cases hreq
      exact Or.inr rfl
    | none =>
      rw [hic] at hreq
      by_cases hincl : incl = true
      · rw [if_pos hincl] at hreq
        cases hreq
        exact Or.inl rfl
      · rw [if_neg hincl] at hreq
        cases hreq

/-! ### `Ecos.generateECOSData` -/

/-- The fetch oracle: what `self.requestJson(url)` yields for a URL, already
traversed into the response shape `processECOSData` consumes. -/
def Fetch : Type := String → Except PyExc RawData

/-- The `StatisticSearch` URL without an item code. -/
def searchURL1 (key code1 period sd ed : String) : String :=
  "https://ecos.bok.or.kr/api/StatisticSearch/" ++ key ++ "/json/kr/1/100000/" ++
    code1 ++ "/" ++ period ++ "/" ++ sd ++ "/" ++ ed

/-- The `StatisticSearch` URL with the item code as a final segment. -/
def searchURL2 (key code1 period sd ed code2 : String) : String :=
  searchURL1 key code1 period sd ed ++ "/" ++ code2

/-- `Ecos.generateECOSData`: one code or two codes build the URL (the second
code as a final segment) and issue the request; any other arity raises
before any request. -/
def generateECOSData (fetch : Fetch) (key : String) (code : List String)
    (period sd ed : String) : Except PyExc RawData :=
  match code with
  | [c1] => fetch (searchURL1 key c1 period sd ed)
  | [c1, c2] => fetch (searchURL2 key c1 period sd ed c2)
  | _ => .error .exception

/-- Claim C6: a one-element code list requests the URL without a second code,
a two-element list appends the second code as the final URL segment, and any
other length raises before issuing any request (the result is an error for
EVERY fetch oracle, so no request is consulted). -/
theorem generateECOSData_code_arity (fetch : Fetch) (key period sd ed : String) :
    (∀ c1, generateECOSData fetch key [c1] period sd ed =
      fetch (searchURL1 key c1 period sd ed)) ∧
    (∀ c1 c2, generateECOSData fetch key [c1, c2] period sd ed =
      fetch (searchURL2 key c1 period sd ed c2)) ∧
    (∀ code : List String, code.length ≠ 1 → code.length ≠ 2 →
      generateECOSData fetch key code period sd ed = .error .exception) := by
  refine ⟨fun c1 => rfl, fun c1 c2 => rfl, ?_⟩
  intro code h1 h2
  match code with
  | [] => rfl
  | [c1] => exact absurd rfl h1
  | [c1, c2] => exact absurd rfl h2
  | c1 :: c2 :: c3 :: t => rfl

/-! ### `Ecos.getECOSData` -/

/-- `s[:n]` on a Python string. -/
def strTake (s : String) (n : Nat) : String := String.mk (s.data.take n)

/-- The `period_map` dict of `getECOSData`: the per-frequency date formatter,
`none` for an unsupported period code. -/
def periodFmt (per : String) : Option (String → String) :=
  if per = "A" then some (fun d0 => strTake d0 4)
  else if per = "Q" then some (fun d0 => strTake d0 4 ++ "Q1")
  else if per = "M" then some (fun d0 => strTake d0 6)
  else if per = "D" then some (fun d0 => d0)
  else if per = "S" then some (fun d0 => strTake d0 4 ++ "S1")
  else if per = "SM" then some (fun d0 => strTake d0 6 ++ "S1")
  else none

/-- The per-entry date preparation of `getECOSData`: an unsupported period
raises `ValueError` (outside the `try`, so it propagates), otherwise both
dates are formatted. -/
def formatDates (per sd ed : String) : Except PyExc (String × String) :=
  match periodFmt per with
  | none => .error .valueError
  | some f => .ok (f sd, f ed)

/-- The contents of the `try` block of one loop iteration (fetch, reshape),
for already-formatted dates. -/
def attemptOutcome (fetch : Fetch) (key : String) (e : String × List String)
    (s2 e2 : String) : Except PyExc (PDF × Option ECOSRow) :=
  match generateECOSData fetch key e.2 e.1 s2 e2 with
  | .error x => .error x
  | .ok raw => processECOSData raw

/-- The body of one loop iteration of `getECOSData` up to `processECOSData`:
format the dates, fetch, reshape. -/
def entryOutcome (fetch : Fetch) (key sd ed : String) (e : String × List String) :
    Except PyExc (PDF × Option ECOSRow) :=
  match formatDates e.1 sd ed with
  | .error x => .error x
  | .ok (s2, e2) => attemptOutcome fetch key e s2 e2

/-- The loop of `getECOSData`: the period check may raise (propagates), the
fetch/reshape part sits in a bare `try`/`except`, so its failure only skips
the entry; a success appends the frame and stores the detail under the
entry's first code.  (A success always has a non-empty code list — the `[]`
branch is unreachable and skips, as the `except` would.) -/
def runEntries (fetch : Fetch) (key sd ed : String)
    (acc : List PDF × List (String × Option ECOSRow)) :
    List (String × List String) →
      Except PyExc (List PDF × List (String × Option ECOSRow))
  | [] => .ok acc
  | e :: rest =>
    match formatDates e.1 sd ed with
    | .error x => .error x
    | .ok (s2, e2) =>
      match attemptOutcome fetch key e s2 e2 with
      | .error _ => runEntries fetch key sd ed acc rest
      | .ok (df, detail) =>
        runEntries fetch key sd ed
          (acc.1 ++ [df],
            match e.2 with
            | c0 :: _ => dictInsert acc.2 c0 detail
            | [] => acc.2) rest

/-- The sorted union of the frames' indexes (`pd.concat(axis=1)` outer-joins
and sorts the date axis). -/
def unionIdx (idxs : List (List (Option Date))) : List (Option Date) :=
  sortDedup optDateLe idxs.flatten

/-- First position of a label in an index. -/
def posOf {α : Type} [DecidableEq α] (a : α) : List α → Option Nat
  | [] => none
  | b :: l => if a = b then some 0 else (posOf a l).map (· + 1)

/-- Align one column to the union index: a label missing from the frame's own
index gets NaN. -/
def reindex (oldIdx newIdx : List (Option Date)) (cells : List (Option String)) :
    List (Option String) :=
  newIdx.map (fun t =>
    match posOf t oldIdx with
    | some i => cells.getD i none
    | none => none)

/-- `pd.concat(dfs, axis=1)`: raises `ValueError` on an empty list
("No objects to concatenate"); a single frame is returned as-is; several
frames are outer-joined on the union of their indexes (reindexing a frame
whose index has duplicate labels raises, hence the `Nodup` guard — pandas
also tolerates several identical duplicated indexes, a case no property
below exercises). -/
def pdConcat (dfs : List PDF) : Except PyExc PDF :=
  match dfs with
  | [] => .error .valueError
  | [df] => .ok df
  | _ =>
    if dfs.all (fun df => decide df.index.Nodup) then
      .ok ⟨unionIdx (dfs.map PDF.index),
        dfs.flatMap (fun df => df.cols.map (fun p =>
          (p.1, reindex df.index (unionIdx (dfs.map PDF.index)) p.2)))⟩
    else .error .valueError

/-- `Ecos.getECOSData`: run the loop, concatenate.  The trailing
`reset_index().rename(columns=...)` only turns the index into a column named
`date`; it is not modelled (no property below mentions it). -/
def getECOSData (fetch : Fetch) (key : String) (codes : List (String × List String))
    (sd ed : String) : Except PyExc (PDF × List (String × Option ECOSRow)) :=
  match runEntries fetch key sd ed ([], []) codes with
  | .error e => .error e
  | .ok (dfs, dets) =>
    match pdConcat dfs with
    | .error e => .error e
    | .ok df => .ok (df, dets)

theorem runEntries_cons_err (fetch : Fetch) (key sd ed : String)
    (acc : List PDF × List (String × Option ECOSRow)) (e : String × List String)
    (rest : List (String × List String)) (x : PyExc)
    (hf : formatDates e.1 sd ed = .error x) :
    runEntries fetch key sd ed acc (e :: rest) = .error x := by
  unfold runEntries
  rw [hf]

theorem runEntries_cons_ok (fetch : Fetch) (key sd ed : String)
    (acc : List PDF × List (String × Option ECOSRow)) (e : String × List String)
    (rest : List (String × List String)) (s2 e2 : String)
    (hf : formatDates e.1 sd ed = .ok (s2, e2)) :
    runEntries fetch key sd ed acc (e :: rest) =
      match attemptOutcome fetch key e s2 e2 with
      | .error _ => runEntries fetch key sd ed acc rest
      | .ok (df, detail) =>
        runEntries fetch key sd ed
          (acc.1 ++ [df],
            match e.2 with
            | c0 :: _ => dictInsert acc.2 c0 detail
            | [] => acc.2) rest := by
  conv_lhs => rw [runEntries]
  rw [hf]

theorem runEntries_invalid (fetch : Fetch) (key sd ed : String)
    (per : String) (c : List String) :
    ∀ (codes : List (String × List String))
      (acc : List PDF × List (String × Option ECOSRow)),
      (per, c) ∈ codes → periodFmt per = none →
      runEntries fetch key sd ed acc codes = .error .valueError := by
  intro codes
  induction codes with
  | nil =>
    intro acc hmem
    cases hmem
  | cons e rest ih =>
    intro acc hmem hbad
    rcases List.mem_cons.mp hmem with rfl | hmem2
    · exact runEntries_cons_err fetch key sd ed acc (per, c) rest _
        (by unfold formatDates; rw [show (per, c).1 = per from rfl, hbad])
    · cases hf : formatDates e.1 sd ed with
      | error x =>
        have hx : x = PyExc.valueError := by
          unfold formatDates at hf
          cases hpf : periodFmt e.1 with
          | none => rw [hpf] at hf; cases hf; rfl
          | some f => rw [hpf] at hf; cases hf
        rw [runEntries_cons_err fetch key sd ed acc e rest x hf, hx]
      | ok p =>
        obtain ⟨s2, e2⟩ := p
        rw [runEntries_cons_ok fetch key sd ed acc e rest s2 e2 hf]
        cases hg : attemptOutcome fetch key e s2 e2 with
        | error x => exact ih _ hmem2 hbad
        | ok q =>
          obtain ⟨df, detail⟩ := q
          exact ih _ hmem2 hbad

/-- Claim C4: the start and end dates are reformatted per frequency before the
request — `A` keeps 4 characters, `Q` keeps 4 and appends `Q1`, `M` keeps 6,
`D` keeps the date, `S` keeps 4 and appends `S1`, `SM` keeps 6 and appends
`S1` — and an entry whose period code is outside `{A, Q, M, D, S, SM}` makes
`getECOSData` raise a `ValueError`. -/
theorem getECOSData_period_formatting (sd ed : String) :
    formatDates "A" sd ed = .ok (strTake sd 4, strTake ed 4) ∧
    formatDates "Q" sd ed = .ok (strTake sd 4 ++ "Q1", strTake ed 4 ++ "Q1") ∧
    formatDates "M" sd ed = .ok (strTake sd 6, strTake ed 6) ∧
    formatDates "D" sd ed = .ok (sd, ed) ∧
    formatDates "S" sd ed = .ok (strTake sd 4 ++ "S1", strTake ed 4 ++ "S1") ∧
    formatDates "SM" sd ed = .ok (strTake sd 6 ++ "S1", strTake ed 6 ++ "S1") ∧
    (∀ per, per ∉ ["A", "Q", "M", "D", "S", "SM"] →
      formatDates per sd ed = .error .valueError) ∧
    (∀ (fetch : Fetch) (key : String) (codes : List (String × List String))
      (per : String) (c : List String), (per, c) ∈ codes →
      per ∉ ["A", "Q", "M", "D", "S", "SM"] →
      getECOSData fetch key codes sd ed = .error .valueError) := by
  have hbad : ∀ per : String, per ∉ ["A", "Q", "M", "D", "S", "SM"] →
      periodFmt per = none := by
    intro per h
    simp only [List.mem_cons, List.not_mem_nil, or_false, not_or] at h
    obtain ⟨hA, hQ, hM, hD, hS, hSM⟩ := h
    unfold periodFmt
    rw [if_neg hA, if_neg hQ, if_neg hM, if_neg hD, if_neg hS, if_neg hSM]
  refine ⟨rfl, rfl, rfl, rfl, rfl, rfl, ?_, ?_⟩
  · intro per h
    unfold formatDates
    rw [hbad per h]
  · intro fetch key codes per c hmem h
    unfold getECOSData
    rw [runEntries_invalid fetch key sd ed per c codes ([], []) hmem (hbad per h)]

/-- `Except.ok`'s payload, `none` on an error (how the loop's `try` sees one
entry). -/
def okPart {ε α : Type} : Except ε α → Option α
  | .ok a => some a
  | .error _ => none

/-- The entries of the loop that fetch and reshape successfully, with their
frames and details, in order. -/
def succFrames (fetch : Fetch) (key sd ed : String)
    (codes : List (String × List String)) : List (PDF × Option ECOSRow) :=
  codes.filterMap (fun e => okPart (entryOutcome fetch key sd ed e))

theorem runEntries_ok (fetch : Fetch) (key sd ed : String)
    (codes : List (String × List String))
    (hval : ∀ e ∈ codes, (periodFmt e.1).isSome = true) :
    ∀ acc : List PDF × List (String × Option ECOSRow),
      ∃ dets, runEntries fetch key sd ed acc codes =
        .ok (acc.1 ++ (succFrames fetch key sd ed codes).map Prod.fst, dets) := by
  induction codes with
  | nil =>
    intro acc
    exact ⟨acc.2, by simp [runEntries, succFrames]⟩
  | cons e rest ih =>
    intro acc
    obtain ⟨f, hf⟩ := Option.isSome_iff_exists.mp (hval e (List.mem_cons_self _ _))
    have hfd : formatDates e.1 sd ed = .ok (f sd, f ed) := by
      unfold formatDates
      rw [hf]
    have hrest := ih (fun q hq => hval q (List.mem_cons_of_mem _ hq))
    have hentry : entryOutcome fetch key sd ed e = attemptOutcome fetch key e (f sd) (f ed) := by
      unfold entryOutcome
      rw [hfd]
    rw [runEntries_cons_ok fetch key sd ed acc e rest (f sd) (f ed) hfd]
    cases hg : attemptOutcome fetch key e (f sd) (f ed) with
    | error x =>
      obtain ⟨dets, hd⟩ := hrest acc
      have hsf : succFrames fetch key sd ed (e :: rest) =
          succFrames fetch key sd ed rest := by
        unfold succFrames
        rw [List.filterMap_cons, hentry, hg]
        rfl
      exact ⟨dets, hd.trans (by rw [hsf])⟩
    | ok q =>
      obtain ⟨df, detail⟩ := q
      obtain ⟨dets, hd⟩ := hrest (acc.1 ++ [df],
        match e.2 with
        | c0 :: _ => dictInsert acc.2 c0 detail
        | [] => acc.2)
      have hsf : succFrames fetch key sd ed (e :: rest) =
          (df, detail) :: succFrames fetch key sd ed rest := by
        unfold succFrames
        rw [List.filterMap_cons, hentry, hg]
        rfl
      refine ⟨dets, hd.trans ?_⟩
      rw [hsf]
      simp [List.append_assoc]

theorem concat_cols_names (dfs : List PDF) (u : List (Option Date)) :
    (dfs.flatMap (fun df => df.cols.map (fun p =>
        (p.1, reindex df.index u p.2)))).map Prod.fst
      = dfs.flatMap (fun df => df.cols.map Prod.fst) := by
  rw [List.map_flatMap]
  congr 1
  funext df
  rw [List.map_map]
  rfl

theorem pdConcat_ok (dfs : List PDF) (hne : dfs ≠ [])
    (hnd : ∀ df ∈ dfs, df.index.Nodup) :
    ∃ df, pdConcat dfs = .ok df ∧
      df.cols.map Prod.fst = dfs.flatMap (fun d0 => d0.cols.map Prod.fst) := by
  match dfs with
  | [] => exact absurd rfl hne
  | [d0] =>
    refine ⟨d0, rfl, ?_⟩
    simp [List.flatMap_cons]
  | a :: b :: t =>
    have hall : (a :: b :: t).all (fun df => decide df.index.Nodup) = true := by
      rw [List.all_eq_true]
      intro df hdf
      rw [decide_eq_true_eq]
      exact hnd df hdf
    refine ⟨⟨unionIdx ((a :: b :: t).map PDF.index),
      (a :: b :: t).flatMap (fun df => df.cols.map (fun p =>
        (p.1, reindex df.index (unionIdx ((a :: b :: t).map PDF.index)) p.2)))⟩,
      ?_, concat_cols_names _ _⟩
    unfold pdConcat
    rw [if_pos hall]

theorem getECOSData_eq_concat (fetch : Fetch) (key : String)
    (codes : List (String × List String)) (sd ed : String) (frames : List PDF)
    (dets : List (String × Option ECOSRow))
    (h : runEntries fetch key sd ed ([], []) codes = .ok (frames, dets)) :
    getECOSData fetch key codes sd ed =
      match pdConcat frames with
      | .error e => .error e
      | .ok df => .ok (df, dets) := by
  unfold getECOSData
  rw [h]

/-- Claim C5 (amended): when every period code is supported and AT LEAST ONE
entry fetches and reshapes successfully (and the successful frames have
duplicate-free indexes, so the final alignment is well defined), a failing
entry never propagates: it contributes nothing, every other entry is still
processed, and the returned table's columns are exactly the columns of the
entries that succeeded, in order.  When every entry fails, the final
`pd.concat([])` itself raises; see the counterexample. -/
theorem getECOSData_skips_failures (fetch : Fetch) (key sd ed : String)
    (codes : List (String × List String))
    (hval : ∀ e ∈ codes, (periodFmt e.1).isSome = true)
    (hne : succFrames fetch key sd ed codes ≠ [])
    (hnd : ∀ p ∈ succFrames fetch key sd ed codes, p.1.index.Nodup) :
    ∃ df dets, getECOSData fetch key codes sd ed = .ok (df, dets) ∧
      df.cols.map Prod.fst = ((succFrames fetch key sd ed codes).map Prod.fst).flatMap
        (fun d0 => d0.cols.map Prod.fst) := by
  obtain ⟨dets, hrun⟩ := runEntries_ok fetch key sd ed codes hval ([], [])
  have hrun2 : runEntries fetch key sd ed ([], []) codes =
      .ok ((succFrames fetch key sd ed codes).map Prod.fst, dets) := hrun
  have hne2 : (succFrames fetch key sd ed codes).map Prod.fst ≠ [] := by
    intro h
    exact hne (List.map_eq_nil_iff.mp h)
  have hnd2 : ∀ df ∈ (succFrames fetch key sd ed codes).map Prod.fst, df.index.Nodup := by
    intro df hdf
    obtain ⟨p, hp, rfl⟩ := List.mem_map.mp hdf
    exact hnd p hp
  obtain ⟨df, hcat, hcols⟩ := pdConcat_ok _ hne2 hnd2
  refine ⟨df, dets, ?_, hcols⟩
  rw [getECOSData_eq_concat fetch key codes sd ed _ dets hrun2, hcat]

/-- A fetch oracle standing for a network that always fails. -/
def failFetch : Fetch := fun _ => .error .exception

/-- Claim C5, counterexample: with a single entry whose fetch fails, the
per-entry failure is indeed swallowed by the `except`, but then `dfs` is
empty and the final `pd.concat(dfs, axis=1)` raises
`ValueError("No objects to concatenate")` — the caller gets an exception and
no table at all, not a table with the successful entries' columns. -/
theorem getECOSData_all_failures_raises :
    entryOutcome failFetch "k" "20230101" "20260101" ("D", ["X"]) =
      .error .exception ∧
    getECOSData failFetch "k" [("D", ["X"])] "20230101" "20260101" =
      .error .valueError :=
  ⟨rfl, rfl⟩

/-- A fetch oracle returning one fixed well-formed response. -/
def okFetch : Fetch :=
  fun _ => .ok ⟨some ⟨some [⟨"1. GDP", "202301", "2.5", some "A", none, none, none⟩]⟩⟩

theorem getECOSData_skips_failures_witness :
    (∀ e ∈ [("M", ["X"])], (periodFmt e.1).isSome = true) ∧
    succFrames okFetch "k" "20230101" "20260101" [("M", ["X"])] ≠ [] ∧
    (∀ p ∈ succFrames okFetch "k" "20230101" "20260101" [("M", ["X"])],
      p.1.index.Nodup) ∧
    (∃ df dets, getECOSData okFetch "k" [("M", ["X"])] "20230101" "20260101" =
        .ok (df, dets) ∧
      df.cols.map Prod.fst =
        ((succFrames okFetch "k" "20230101" "20260101" [("M", ["X"])]).map
          Prod.fst).flatMap (fun d0 => d0.cols.map Prod.fst)) :=
  ⟨by decide, by decide, by decide,
    getECOSData_skips_failures okFetch "k" "20230101" "20260101" [("M", ["X"])]
      (by decide) (by decide) (by decide)⟩
